import Mathlib

/-!
Verification of the claude-mcp-server request-to-subprocess translation layer.
Strings are modelled as lists of characters; JSON values as an inductive type
with integer numbers (fractional and exponent number forms, and lone
surrogates, are outside the model).
-/

set_option maxRecDepth 100000

abbrev Str := List Char

def lit (s : String) : Str := s.data

/-- JSON values as produced by the JavaScript runtime JSON facilities,
with numbers restricted to integers. -/
inductive JVal where
  | jnull : JVal
  | jbool : Bool → JVal
  | jnum : Int → JVal
  | jstr : Str → JVal
  | jarr : List JVal → JVal
  | jobj : List (Str × JVal) → JVal

def qChar : Char := Char.ofNat 34

def bsChar : Char := Char.ofNat 92

def sqChar : Char := Char.ofNat 39

def lbChar : Char := Char.ofNat 123

def rbChar : Char := Char.ofNat 125

def hexDigit (n : Nat) : Char :=
  if n < 10 then Char.ofNat (48 + n) else Char.ofNat (87 + n)

/-- Escape of one character inside a JSON string literal, as performed by
the JavaScript JSON serializer. -/
def jsonEscapeChar (c : Char) : Str :=
  if c = qChar then [bsChar, qChar]
  else if c = bsChar then [bsChar, bsChar]
  else if c = Char.ofNat 8 then [bsChar, 'b']
  else if c = Char.ofNat 12 then [bsChar, 'f']
  else if c = Char.ofNat 10 then [bsChar, 'n']
  else if c = Char.ofNat 13 then [bsChar, 'r']
  else if c = Char.ofNat 9 then [bsChar, 't']
  else if c.toNat < 32 then
    [bsChar, 'u', '0', '0', hexDigit (c.toNat / 16), hexDigit (c.toNat % 16)]
  else [c]

def jsonEscape (s : Str) : Str := s.flatMap jsonEscapeChar

/-- JSON serialization of a string value: a quoted, escaped literal. -/
def jsonQuoteStr (s : Str) : Str := qChar :: jsonEscape s ++ [qChar]

def natDecAux : Nat → Nat → Str
  | 0, _ => []
  | fuel + 1, n =>
    if n < 10 then [hexDigit n]
    else natDecAux fuel (n / 10) ++ [hexDigit (n % 10)]

def natDec (n : Nat) : Str := natDecAux (n + 1) n

def intDec (i : Int) : Str :=
  if i < 0 then '-' :: natDec (-i).toNat else natDec i.toNat

def commaJoin : List Str → Str
  | [] => []
  | [s] => s
  | s :: rest => s ++ ',' :: commaJoin rest

mutual

/-- Serialization of a JSON value in the canonical form produced by the
JavaScript JSON serializer with no spacing argument. -/
def stringify : JVal → Str
  | .jnull => lit "null"
  | .jbool true => lit "true"
  | .jbool false => lit "false"
  | .jnum i => intDec i
  | .jstr s => jsonQuoteStr s
  | .jarr elems => '[' :: commaJoin (stringifyList elems) ++ [']']
  | .jobj fields => lbChar :: commaJoin (stringifyFields fields) ++ [rbChar]

def stringifyList : List JVal → List Str
  | [] => []
  | v :: rest => stringify v :: stringifyList rest

def stringifyFields : List (Str × JVal) → List Str
  | [] => []
  | (k, v) :: rest => (jsonQuoteStr k ++ ':' :: stringify v) :: stringifyFields rest

end

example : stringify (.jobj [(lit "result", .jstr (lit "hi")), (lit "is_error", .jbool false)]) =
    lit "\x7b\"result\":\"hi\",\"is_error\":false\x7d" := rfl

def isJsonWS (c : Char) : Bool :=
  c = ' ' || c = Char.ofNat 9 || c = Char.ofNat 10 || c = Char.ofNat 13

def skipWS (s : Str) : Str := s.dropWhile isJsonWS

def hexVal (c : Char) : Option Nat :=
  if 48 ≤ c.toNat ∧ c.toNat ≤ 57 then some (c.toNat - 48)
  else if 97 ≤ c.toNat ∧ c.toNat ≤ 102 then some (c.toNat - 87)
  else if 65 ≤ c.toNat ∧ c.toNat ≤ 70 then some (c.toNat - 55)
  else none

/-- Reads the body of a JSON string literal after the opening quote, returning
the decoded content and the remaining input after the closing quote. Escaped
lone surrogates are outside the model and rejected. -/
def parseStringBody : Str → Option (Str × Str)
  | [] => none
  | c :: rest =>
    if c = qChar then some ([], rest)
    else if c = bsChar then
      match rest with
      | [] => none
      | d :: rest2 =>
        if d = qChar then (parseStringBody rest2).map fun p => (qChar :: p.1, p.2)
        else if d = bsChar then (parseStringBody rest2).map fun p => (bsChar :: p.1, p.2)
        else if d = '/' then (parseStringBody rest2).map fun p => ('/' :: p.1, p.2)
        else if d = 'b' then (parseStringBody rest2).map fun p => (Char.ofNat 8 :: p.1, p.2)
        else if d = 'f' then (parseStringBody rest2).map fun p => (Char.ofNat 12 :: p.1, p.2)
        else if d = 'n' then (parseStringBody rest2).map fun p => (Char.ofNat 10 :: p.1, p.2)
        else if d = 'r' then (parseStringBody rest2).map fun p => (Char.ofNat 13 :: p.1, p.2)
        else if d = 't' then (parseStringBody rest2).map fun p => (Char.ofNat 9 :: p.1, p.2)
        else if d = 'u' then
          match rest2 with
          | h1 :: h2 :: h3 :: h4 :: rest3 =>
            match hexVal h1, hexVal h2, hexVal h3, hexVal h4 with
            | some a, some b, some c2, some d2 =>
              let n := ((a * 16 + b) * 16 + c2) * 16 + d2
              if 55296 ≤ n ∧ n < 57344 then none
              else (parseStringBody rest3).map fun p => (Char.ofNat n :: p.1, p.2)
            | _, _, _, _ => none
          | _ => none
        else none
    else if c.toNat < 32 then none
    else (parseStringBody rest).map fun p => (c :: p.1, p.2)

def isDigitCh (c : Char) : Bool := 48 ≤ c.toNat && c.toNat ≤ 57

def takeDigits : Str → (Str × Str)
  | [] => ([], [])
  | c :: rest =>
    if isDigitCh c then
      let p := takeDigits rest
      (c :: p.1, p.2)
    else ([], c :: rest)

def digitsToNat (ds : Str) : Nat := ds.foldl (fun acc c => acc * 10 + (c.toNat - 48)) 0

/-- Reads a JSON integer literal. Fractional and exponent forms are outside
the model and rejected. -/
def parseIntLit (cs : Str) : Option (Int × Str) :=
  let signed : Bool × Str :=
    match cs with
    | c :: rest => if c = '-' then (true, rest) else (false, cs)
    | [] => (false, [])
  match takeDigits signed.2 with
  | ([], _) => none
  | (d :: ds, rest) =>
    if d = '0' ∧ ds ≠ [] then none
    else
      match rest with
      | c :: _ =>
        if c = '.' ∨ c = 'e' ∨ c = 'E' then none
        else some ((if signed.1 then -(digitsToNat (d :: ds) : Int) else (digitsToNat (d :: ds) : Int)), rest)
      | [] => some ((if signed.1 then -(digitsToNat (d :: ds) : Int) else (digitsToNat (d :: ds) : Int)), rest)

/-- Inserts a key into an object field list with the JavaScript semantics for
duplicate keys in parsed JSON: the first occurrence keeps its position, the
latest value wins. -/
def insertField : List (Str × JVal) → Str → JVal → List (Str × JVal)
  | [], k, v => [(k, v)]
  | (k', v') :: rest, k, v =>
    if k' = k then (k, v) :: rest else (k', v') :: insertField rest k v

inductive PMode where
  | pval : PMode
  | parr : List JVal → PMode
  | pobj : List (Str × JVal) → PMode

/-- Fuel-indexed recursive-descent JSON parser. Mode pval parses one value;
parr and pobj loop over the remaining elements or fields of a composite. -/
def parseF : Nat → PMode → Str → Option (JVal × Str)
  | 0, _, _ => none
  | fuel + 1, .pval, cs =>
    match skipWS cs with
    | 'n' :: 'u' :: 'l' :: 'l' :: rest => some (.jnull, rest)
    | 't' :: 'r' :: 'u' :: 'e' :: rest => some (.jbool true, rest)
    | 'f' :: 'a' :: 'l' :: 's' :: 'e' :: rest => some (.jbool false, rest)
    | c :: rest =>
      if c = qChar then (parseStringBody rest).map fun p => (.jstr p.1, p.2)
      else if c = '[' then
        match skipWS rest with
        | c2 :: r2 => if c2 = ']' then some (.jarr [], r2) else parseF fuel (.parr []) (c2 :: r2)
        | [] => none
      else if c = lbChar then
        match skipWS rest with
        | c2 :: r2 => if c2 = rbChar then some (.jobj [], r2) else parseF fuel (.pobj []) (c2 :: r2)
        | [] => none
      else (parseIntLit (c :: rest)).map fun p => (.jnum p.1, p.2)
    | [] => none
  | fuel + 1, .parr acc, cs =>
    match parseF fuel .pval cs with
    | some (v, r) =>
      match skipWS r with
      | c :: r2 =>
        if c = ',' then parseF fuel (.parr (acc ++ [v])) r2
        else if c = ']' then some (.jarr (acc ++ [v]), r2)
        else none
      | [] => none
    | none => none
  | fuel + 1, .pobj acc, cs =>
    match skipWS cs with
    | c :: r =>
      if c = qChar then
        match parseStringBody r with
        | some (k, r2) =>
          match skipWS r2 with
          | c2 :: r3 =>
            if c2 = ':' then
              match parseF fuel .pval r3 with
              | some (v, r4) =>
                match skipWS r4 with
                | c3 :: r5 =>
                  if c3 = ',' then parseF fuel (.pobj (insertField acc k v)) r5
                  else if c3 = rbChar then some (.jobj (insertField acc k v), r5)
                  else none
                | [] => none
              | none => none
            else none
          | [] => none
        | none => none
      else none
    | [] => none

/-- The JavaScript JSON text interpreter: optional surrounding whitespace
around a single value, with the whole input consumed. -/
def jsonParse (s : Str) : Option JVal :=
  match parseF (s.length + 1) .pval s with
  | some (v, rest) => if skipWS rest = [] then some v else none
  | none => none

example : jsonParse (lit "\x7b\"result\":\"hi\",\"is_error\":false\x7d") =
    some (.jobj [(lit "result", .jstr (lit "hi")), (lit "is_error", .jbool false)]) := rfl

example : jsonParse (lit " [1, -20, \"a\\n\", null] ") =
    some (.jarr [.jnum 1, .jnum (-20), .jstr ['a', Char.ofNat 10], .jnull]) := rfl

example : jsonParse (lit "\x7b\"a\":1,\"b\":2,\"a\":3\x7d") =
    some (.jobj [(lit "a", .jnum 3), (lit "b", .jnum 2)]) := rfl

example : jsonParse (lit "not json") = none := rfl

example : jsonParse (lit "1.50") = none := rfl

/-- Whitespace characters removed by the JavaScript string trim operation:
the WhiteSpace and LineTerminator productions. -/
def isJsWhitespace (c : Char) : Bool :=
  c.toNat = 9 || c.toNat = 10 || c.toNat = 11 || c.toNat = 12 || c.toNat = 13 ||
  c.toNat = 32 || c.toNat = 160 || c.toNat = 5760 ||
  (8192 ≤ c.toNat && c.toNat ≤ 8202) ||
  c.toNat = 8232 || c.toNat = 8233 || c.toNat = 8239 || c.toNat = 8287 ||
  c.toNat = 12288 || c.toNat = 65279

def jsTrim (s : Str) : Str :=
  (((s.dropWhile isJsWhitespace).reverse).dropWhile isJsWhitespace).reverse

/-- Truthiness of a JavaScript value in the modelled fragment. -/
def jsTruthy : JVal → Bool
  | .jnull => false
  | .jbool b => b
  | .jnum n => n ≠ 0
  | .jstr s => s ≠ []
  | .jarr _ => true
  | .jobj _ => true

def optTruthy : Option JVal → Bool
  | none => false
  | some v => jsTruthy v

def jsGetFieldList : List (Str × JVal) → Str → Option JVal
  | [], _ => none
  | (k', v) :: rest, k => if k' = k then some v else jsGetFieldList rest k

/-- Property access on a parsed JSON value: objects yield their field when
present; every other non-null value yields undefined (here: none). Access on
null throws in JavaScript and is handled separately by the caller. -/
def jsGetField : JVal → Str → Option JVal
  | .jobj fs, k => jsGetFieldList fs k
  | _, _ => none

structure ParsedR where
  response : JVal
  sessionId : Option JVal
  isError : JVal

/-- The response field of the decoded record: json.result when truthy, the
re-serialized record otherwise. -/
def respOf (json : JVal) : JVal :=
  match jsGetField json (lit "result") with
  | some v => if jsTruthy v then v else .jstr (stringify json)
  | none => .jstr (stringify json)

/-- The session id of the decoded record: json.session_id when truthy, null
otherwise. -/
def sidOf (json : JVal) : Option JVal :=
  match jsGetField json (lit "session_id") with
  | some v => if jsTruthy v then some v else none
  | none => none

/-- The error indicator of the decoded record: json.is_error when truthy,
false otherwise. -/
def errOf (json : JVal) : JVal :=
  match jsGetField json (lit "is_error") with
  | some v => if jsTruthy v then v else .jbool false
  | none => .jbool false

/-- Interpretation of the raw subprocess stdout, mirroring
parseClaudeJsonResponse in src/claude-service.ts. A parse result of null
makes the property accesses inside the try block throw, landing in the same
catch branch as a parse failure. -/
def parseClaudeJsonResponse (stdout : Str) : ParsedR :=
  match jsonParse stdout with
  | some .jnull =>
    { response := .jstr (jsTrim stdout), sessionId := none, isError := .jbool false }
  | some json =>
    { response := respOf json, sessionId := sidOf json, isError := errOf json }
  | none =>
    { response := .jstr (jsTrim stdout), sessionId := none, isError := .jbool false }

structure ClaudeOptions where
  model : Option Str
  systemPrompt : Option Str
  cwd : Option Str

/-- Command line built by executeClaude in src/claude-service.ts for a new
session: the prompt and the optional system prompt are interpolated as
JSON-quoted literals, the optional model name is interpolated raw. -/
def buildClaudeCommand (prompt : Str) (o : ClaudeOptions) : Str :=
  let safePrompt := jsonQuoteStr prompt
  let base := lit "claude -p " ++ safePrompt ++ lit " --output-format json"
  let withModel :=
    match o.model with
    | some m => if m = [] then base else base ++ lit " --model " ++ m
    | none => base
  match o.systemPrompt with
  | some sp =>
    if sp = [] then withModel
    else withModel ++ lit " --system-prompt " ++ jsonQuoteStr sp
  | none => withModel

/-- Command line built by executeClaudeReply in src/claude-service.ts: flag
-r with the identifier when a session id is supplied and non-empty, flag -c
otherwise, and the append-semantics system prompt flag. -/
def buildClaudeReplyCommand (prompt : Str) (sessionId : Option Str) (o : ClaudeOptions) : Str :=
  let safePrompt := jsonQuoteStr prompt
  let base :=
    match sessionId with
    | some sid =>
      if sid = [] then lit "claude -c -p " ++ safePrompt ++ lit " --output-format json"
      else lit "claude -r " ++ sid ++ lit " -p " ++ safePrompt ++ lit " --output-format json"
    | none => lit "claude -c -p " ++ safePrompt ++ lit " --output-format json"
  let withModel :=
    match o.model with
    | some m => if m = [] then base else base ++ lit " --model " ++ m
    | none => base
  match o.systemPrompt with
  | some sp =>
    if sp = [] then withModel
    else withModel ++ lit " --append-system-prompt " ++ jsonQuoteStr sp
  | none => withModel

structure ExecErr where
  message : Str

/-- Injected execution function: command text and optional working directory
in, stdout and stderr out, or a failure. -/
def ExecFn : Type := Str → Option Str → Except ExecErr (Str × Str)

structure ClaudeResponse where
  response : JVal
  sessionId : Option JVal

/-- The start operation of src/claude-service.ts. -/
def executeClaude (execF : ExecFn) (prompt : Str) (o : ClaudeOptions) :
    Except ExecErr ClaudeResponse :=
  match execF (buildClaudeCommand prompt o) o.cwd with
  | .error e => .error e
  | .ok out =>
    let p := parseClaudeJsonResponse out.1
    .ok { response := p.response, sessionId := p.sessionId }

/-- The continue operation of src/claude-service.ts. The final session id is
the parsed one when truthy, else the supplied one when truthy, else null. -/
def executeClaudeReply (execF : ExecFn) (prompt : Str) (sessionId : Option Str)
    (o : ClaudeOptions) : Except ExecErr ClaudeResponse :=
  match execF (buildClaudeReplyCommand prompt sessionId o) o.cwd with
  | .error e => .error e
  | .ok out =>
    let p := parseClaudeJsonResponse out.1
    let finalSid : Option JVal :=
      if optTruthy p.sessionId then p.sessionId
      else
        match sessionId with
        | some sid => if sid = [] then none else some (.jstr sid)
        | none => none
    .ok { response := p.response, sessionId := finalSid }

/-- Protocol-level result of a tool call: the text content items, the error
flag (absent in the source on the success path, modelled as false), and the
session id metadata. -/
structure ToolResult where
  contentTexts : List JVal
  isError : Bool
  meta : Option JVal

structure ClaudeArgs where
  prompt : Str
  model : Option Str
  systemPrompt : Option Str
  cwd : Option Str

structure ClaudeReplyArgs where
  prompt : Str
  sessionId : Option Str
  model : Option Str
  systemPrompt : Option Str
  cwd : Option Str

/-- The chat handler of the dispatch layer: wraps the response as one text
content item and attaches the session id as metadata when truthy. -/
def handleClaude (execF : ExecFn) (args : ClaudeArgs) : Except ExecErr ToolResult :=
  match executeClaude execF args.prompt ⟨args.model, args.systemPrompt, args.cwd⟩ with
  | .error e => .error e
  | .ok r =>
    .ok { contentTexts := [r.response], isError := false,
          meta := if optTruthy r.sessionId then r.sessionId else none }

/-- The chat-reply handler of the dispatch layer. -/
def handleClaudeReply (execF : ExecFn) (args : ClaudeReplyArgs) : Except ExecErr ToolResult :=
  match executeClaudeReply execF args.prompt args.sessionId
      ⟨args.model, args.systemPrompt, args.cwd⟩ with
  | .error e => .error e
  | .ok r =>
    .ok { contentTexts := [r.response], isError := false,
          meta := if optTruthy r.sessionId then r.sessionId else none }

inductive ToolCallErr where
  | unknownTool : Str → ToolCallErr

/-- The tool dispatch boundary: known tools have their failures converted to
an error-flagged protocol result; an unknown tool name throws past the catch
block. Arguments arrive as an untyped record; the chat branch reads only the
fields of ClaudeArgs. -/
def handleToolCall (execF : ExecFn) (name : Str) (args : ClaudeReplyArgs) :
    Except ToolCallErr ToolResult :=
  if name = lit "chat" then
    match handleClaude execF ⟨args.prompt, args.model, args.systemPrompt, args.cwd⟩ with
    | .ok r => .ok r
    | .error e =>
      .ok { contentTexts := [.jstr (lit "Error executing claude: " ++ e.message)],
            isError := true, meta := none }
  else if name = lit "chat-reply" then
    match handleClaudeReply execF args with
    | .ok r => .ok r
    | .error e =>
      .ok { contentTexts := [.jstr (lit "Error executing claude: " ++ e.message)],
            isError := true, meta := none }
  else .error (.unknownTool name)

example :
    (parseClaudeJsonResponse (lit "\x7b\"result\":\"Hi!\",\"session_id\":\"abc\"\x7d")).response =
      .jstr (lit "Hi!") := rfl

example :
    (parseClaudeJsonResponse (lit "plain text ")).response = .jstr (lit "plain text") := rfl

def btChar : Char := Char.ofNat 96

def nlChar : Char := Char.ofNat 10

/-- Characters whose shell behaviour (globbing, control operators, comments,
expansions) is outside the model; a command containing one of them unquoted
is not assigned a token list. -/
def isBashMeta (c : Char) : Bool :=
  c = ';' || c = '|' || c = '&' || c = '<' || c = '>' || c = '(' || c = ')' ||
  c = '*' || c = '?' || c = '[' || c = ']' || c = '~' || c = '#' || c = '!' ||
  c = lbChar || c = rbChar

/-- Word splitting of a command line by the posix shell, restricted to the
modelled fragment: space and tab separate words; double quotes group with the
backslash rules of the shell, single quotes group literally. Any parameter or
command expansion character makes the result undefined (none). Mode 0 is
outside quotes, 1 inside double quotes, 2 inside single quotes. -/
def bashTokA : Str → Nat → Str → Bool → Option (List Str)
  | [], mode, cur, inW =>
    if mode = 0 then some (if inW then [cur] else []) else none
  | c :: rest, mode, cur, inW =>
    if mode = 1 then
      if c = '$' ∨ c = btChar then none
      else if c = qChar then bashTokA rest 0 cur true
      else if c = bsChar then
        match rest with
        | [] => none
        | d :: rest2 =>
          if d = qChar ∨ d = bsChar ∨ d = '$' ∨ d = btChar then bashTokA rest2 1 (cur ++ [d]) true
          else if d = nlChar then bashTokA rest2 1 cur true
          else bashTokA rest2 1 (cur ++ [bsChar, d]) true
      else bashTokA rest 1 (cur ++ [c]) true
    else if mode = 2 then
      if c = sqChar then bashTokA rest 0 cur true
      else bashTokA rest 2 (cur ++ [c]) true
    else
      if c = '$' ∨ c = btChar ∨ isBashMeta c ∨ c = nlChar then none
      else if c = ' ' ∨ c = Char.ofNat 9 then
        if inW then (bashTokA rest 0 [] false).map (cur :: ·) else bashTokA rest 0 [] false
      else if c = qChar then bashTokA rest 1 cur true
      else if c = sqChar then bashTokA rest 2 cur true
      else if c = bsChar then
        match rest with
        | [] => none
        | d :: rest2 =>
          if d = nlChar then bashTokA rest2 0 cur inW
          else bashTokA rest2 0 (cur ++ [d]) true
      else bashTokA rest 0 (cur ++ [c]) true

def bashTokens (s : Str) : Option (List Str) := bashTokA s 0 [] false

/-- The character sequence the shell-level word holds for one character of
the original prompt, after JSON escaping followed by the double-quote rules
of the shell. -/
def shellSeen (c : Char) : Str :=
  if c = qChar ∨ c = bsChar then [c] else jsonEscapeChar c

def shellSeenStr (s : Str) : Str := s.flatMap shellSeen

example : bashTokens (buildClaudeCommand (lit "hello world") ⟨none, none, none⟩) =
    some [lit "claude", lit "-p", lit "hello world", lit "--output-format", lit "json"] := rfl

example : bashTokens (buildClaudeCommand (lit "say \"hi\" and \\ and don-t") ⟨none, none, none⟩) =
    some [lit "claude", lit "-p", lit "say \"hi\" and \\ and don-t",
      lit "--output-format", lit "json"] := rfl

example :
    bashTokens (buildClaudeCommand ['a', nlChar, 'b'] ⟨none, none, none⟩) =
      some [lit "claude", lit "-p", ['a', bsChar, 'n', 'b'], lit "--output-format", lit "json"] := rfl

/-- A character that the modelled shell passes through unchanged inside an
unquoted word. -/
def plainChar (c : Char) : Bool :=
  !(c = '$' || c = btChar || isBashMeta c || c = nlChar || c = ' ' || c = Char.ofNat 9 ||
    c = qChar || c = sqChar || c = bsChar)

/-- Absence of the expansion-starting characters, whose shell behaviour is
outside the model. -/
abbrev noExp (s : Str) : Prop := '$' ∉ s ∧ btChar ∉ s

theorem tok_plain_step (c : Char) (h : plainChar c = true) (cs : Str) (cur : Str) (inW : Bool) :
    bashTokA (c :: cs) 0 cur inW = bashTokA cs 0 (cur ++ [c]) true := by
  simp only [plainChar, Bool.not_eq_true', Bool.or_eq_false_iff, decide_eq_false_iff_not] at h
  obtain ⟨⟨⟨⟨⟨⟨⟨⟨h1, h2⟩, h3⟩, h4⟩, h5⟩, h6⟩, h7⟩, h8⟩, h9⟩ := h
  rw [bashTokA.eq_def]
  simp [h1, h2, h3, h4, h5, h6, h7, h8, h9]

theorem tok_space_step (cs : Str) (cur : Str) :
    bashTokA (' ' :: cs) 0 cur true = (bashTokA cs 0 [] false).map (cur :: ·) := by
  rw [bashTokA.eq_def]
  simp [isBashMeta, btChar, nlChar, lbChar, rbChar, qChar, sqChar, bsChar]

theorem tok_end (cur : Str) : bashTokA [] 0 cur true = some [cur] := rfl

theorem tok_dq_open (cs : Str) (cur : Str) (inW : Bool) :
    bashTokA (qChar :: cs) 0 cur inW = bashTokA cs 1 cur true := by
  rw [bashTokA.eq_def]
  simp [isBashMeta, btChar, nlChar, lbChar, rbChar, qChar, sqChar, bsChar]

theorem tok_dq_close (cs : Str) (cur : Str) :
    bashTokA (qChar :: cs) 1 cur true = bashTokA cs 0 cur true := by
  rw [bashTokA.eq_def]
  simp [btChar, qChar]

theorem tok_dq_plain (c : Char) (h1 : ¬ c = '$') (h2 : ¬ c = btChar) (h3 : ¬ c = qChar)
    (h4 : ¬ c = bsChar) (cs : Str) (cur : Str) :
    bashTokA (c :: cs) 1 cur true = bashTokA cs 1 (cur ++ [c]) true := by
  rw [bashTokA.eq_def]
  simp [h1, h2, h3, h4]

theorem tok_dq_bs_special (d : Char) (h : d = qChar ∨ d = bsChar) (cs : Str) (cur : Str) :
    bashTokA (bsChar :: d :: cs) 1 cur true = bashTokA cs 1 (cur ++ [d]) true := by
  rcases h with rfl | rfl <;> rfl

theorem tok_dq_bs_other (d : Char) (h1 : ¬ d = qChar) (h2 : ¬ d = bsChar) (h3 : ¬ d = '$')
    (h4 : ¬ d = btChar) (h5 : ¬ d = nlChar) (cs : Str) (cur : Str) :
    bashTokA (bsChar :: d :: cs) 1 cur true = bashTokA cs 1 (cur ++ [bsChar, d]) true := by
  rw [bashTokA.eq_def]
  simp [h1, h2, h3, h4, h5, show ¬(bsChar = '$' ∨ bsChar = btChar) by decide,
    show ¬ bsChar = qChar by decide]

theorem hexDigit_dq_ok (n : Nat) (h : n < 16) :
    ¬ hexDigit n = '$' ∧ ¬ hexDigit n = btChar ∧ ¬ hexDigit n = qChar ∧ ¬ hexDigit n = bsChar := by
  interval_cases n <;> simp [hexDigit, btChar, qChar, bsChar]

/-- Consuming the JSON escape of one character inside a double-quoted shell
word appends exactly the shell-seen form of that character. -/
theorem tok_dq_escape_char (c : Char) (hd : ¬ c = '$') (hb : ¬ c = btChar) (cs : Str) (cur : Str) :
    bashTokA (jsonEscapeChar c ++ cs) 1 cur true = bashTokA cs 1 (cur ++ shellSeen c) true := by
  by_cases hq : c = qChar
  · subst hq
    rw [show jsonEscapeChar qChar = [bsChar, qChar] by simp [jsonEscapeChar]]
    rw [show shellSeen qChar = [qChar] by simp [shellSeen]]
    exact tok_dq_bs_special qChar (Or.inl rfl) cs cur
  by_cases hbs : c = bsChar
  · subst hbs
    rw [show jsonEscapeChar bsChar = [bsChar, bsChar] by simp [jsonEscapeChar, qChar, bsChar]]
    rw [show shellSeen bsChar = [bsChar] by simp [shellSeen]]
    exact tok_dq_bs_special bsChar (Or.inr rfl) cs cur
  rw [show shellSeen c = jsonEscapeChar c by simp [shellSeen, hq, hbs]]
  by_cases h8 : c = Char.ofNat 8
  · subst h8
    rw [show jsonEscapeChar (Char.ofNat 8) = [bsChar, 'b'] by simp [jsonEscapeChar, qChar, bsChar]]
    exact tok_dq_bs_other 'b' (by decide) (by decide) (by decide) (by decide) (by decide) cs cur
  by_cases h12 : c = Char.ofNat 12
  · subst h12
    rw [show jsonEscapeChar (Char.ofNat 12) = [bsChar, 'f'] by
      simp [jsonEscapeChar, qChar, bsChar]]
    exact tok_dq_bs_other 'f' (by decide) (by decide) (by decide) (by decide) (by decide) cs cur
  by_cases h10 : c = Char.ofNat 10
  · subst h10
    rw [show jsonEscapeChar (Char.ofNat 10) = [bsChar, 'n'] by
      simp [jsonEscapeChar, qChar, bsChar]]
    exact tok_dq_bs_other 'n' (by decide) (by decide) (by decide) (by decide) (by decide) cs cur
  by_cases h13 : c = Char.ofNat 13
  · subst h13
    rw [show jsonEscapeChar (Char.ofNat 13) = [bsChar, 'r'] by
      simp [jsonEscapeChar, qChar, bsChar]]
    exact tok_dq_bs_other 'r' (by decide) (by decide) (by decide) (by decide) (by decide) cs cur
  by_cases h9 : c = Char.ofNat 9
  · subst h9
    rw [show jsonEscapeChar (Char.ofNat 9) = [bsChar, 't'] by simp [jsonEscapeChar, qChar, bsChar]]
    exact tok_dq_bs_other 't' (by decide) (by decide) (by decide) (by decide) (by decide) cs cur
  by_cases hc : c.toNat < 32
  · rw [show jsonEscapeChar c =
        [bsChar, 'u', '0', '0', hexDigit (c.toNat / 16), hexDigit (c.toNat % 16)] by
      simp [jsonEscapeChar, hq, hbs, h8, h12, h10, h13, h9, hc]]
    have k1 : c.toNat / 16 < 16 := by omega
    have k2 : c.toNat % 16 < 16 := by omega
    obtain ⟨a1, a2, a3, a4⟩ := hexDigit_dq_ok _ k1
    obtain ⟨b1, b2, b3, b4⟩ := hexDigit_dq_ok _ k2
    rw [show ([bsChar, 'u', '0', '0', hexDigit (c.toNat / 16), hexDigit (c.toNat % 16)] ++ cs) =
        bsChar :: 'u' :: ('0' :: '0' :: hexDigit (c.toNat / 16) :: hexDigit (c.toNat % 16) :: cs)
      from rfl]
    rw [tok_dq_bs_other 'u' (by decide) (by decide) (by decide) (by decide) (by decide)]
    rw [tok_dq_plain '0' (by decide) (by decide) (by decide) (by decide)]
    rw [tok_dq_plain '0' (by decide) (by decide) (by decide) (by decide)]
    rw [tok_dq_plain _ a1 a2 a3 a4]
    rw [tok_dq_plain _ b1 b2 b3 b4]
    simp
  · rw [show jsonEscapeChar c = [c] by simp [jsonEscapeChar, hq, hbs, h8, h12, h10, h13, h9, hc]]
    rw [show ([c] ++ cs) = c :: cs from rfl]
    rw [tok_dq_plain c hd hb hq hbs]

/-- Consuming the JSON escape of a whole prompt inside a double-quoted shell
word appends exactly the shell-seen form of the prompt. -/
theorem tok_dq_escape (s : Str) (h : noExp s) : ∀ (cs : Str) (cur : Str),
    bashTokA (jsonEscape s ++ cs) 1 cur true = bashTokA cs 1 (cur ++ shellSeenStr s) true := by
  induction s with
  | nil => intro cs cur; simp [jsonEscape, shellSeenStr]
  | cons c s ih =>
    intro cs cur
    obtain ⟨hd, hb⟩ := h
    have hcd : ¬ c = '$' := fun hc => hd (hc ▸ List.mem_cons_self c s)
    have hcb : ¬ c = btChar := fun hc => hb (hc ▸ List.mem_cons_self c s)
    have ht : noExp s :=
      ⟨fun hm => hd (List.mem_cons_of_mem c hm), fun hm => hb (List.mem_cons_of_mem c hm)⟩
    rw [show jsonEscape (c :: s) = jsonEscapeChar c ++ jsonEscape s by
      simp [jsonEscape, List.flatMap_cons]]
    rw [List.append_assoc, tok_dq_escape_char c hcd hcb, ih ht]
    rw [show shellSeenStr (c :: s) = shellSeen c ++ shellSeenStr s by
      simp [shellSeenStr, List.flatMap_cons]]
    rw [List.append_assoc]

/-- Consuming a JSON-quoted literal from outside quotes appends the
shell-seen form of its content to the current word. -/
theorem tok_quoted (p : Str) (h : noExp p) (cs : Str) (cur : Str) (inW : Bool) :
    bashTokA (jsonQuoteStr p ++ cs) 0 cur inW = bashTokA cs 0 (cur ++ shellSeenStr p) true := by
  rw [show jsonQuoteStr p ++ cs = qChar :: (jsonEscape p ++ (qChar :: cs)) by
    simp [jsonQuoteStr]]
  rw [tok_dq_open, tok_dq_escape p h, tok_dq_close]

/-- Consuming a word of plain characters. -/
theorem tok_word (m : Str) (hm : ∀ c ∈ m, plainChar c = true) : ∀ (cs : Str) (cur : Str),
    bashTokA (m ++ cs) 0 cur true = bashTokA cs 0 (cur ++ m) true := by
  induction m with
  | nil => intro cs cur; simp
  | cons c m ih =>
    intro cs cur
    rw [List.cons_append, tok_plain_step c (hm c (List.mem_cons_self c m))]
    rw [ih (fun d hd => hm d (List.mem_cons_of_mem c hd))]
    simp

theorem tok_word_start (m : Str) (hm : ∀ c ∈ m, plainChar c = true) (hne : m ≠ [])
    (cs : Str) : bashTokA (m ++ cs) 0 [] false = bashTokA cs 0 m true := by
  match m, hne with
  | c :: m, _ =>
    rw [List.cons_append, tok_plain_step c (hm c (List.mem_cons_self c m))]
    rw [tok_word m (fun d hd => hm d (List.mem_cons_of_mem c hd))]
    simp

def modelSeg (o : ClaudeOptions) : Str :=
  match o.model with
  | some m => if m = [] then [] else lit " --model " ++ m
  | none => []

def sysSeg (flag : Str) (o : ClaudeOptions) : Str :=
  match o.systemPrompt with
  | some sp => if sp = [] then [] else (' ' :: flag) ++ (' ' :: jsonQuoteStr sp)
  | none => []

def modelWords (o : ClaudeOptions) : List Str :=
  match o.model with
  | some m => if m = [] then [] else [lit "--model", m]
  | none => []

def sysWords (flag : Str) (o : ClaudeOptions) : List Str :=
  match o.systemPrompt with
  | some sp => if sp = [] then [] else [flag, shellSeenStr sp]
  | none => []

def modelPlain (o : ClaudeOptions) : Prop :=
  ∀ m, o.model = some m → m ≠ [] → ∀ c ∈ m, plainChar c = true

def sysNoExp (o : ClaudeOptions) : Prop :=
  ∀ sp, o.systemPrompt = some sp → sp ≠ [] → noExp sp

theorem tok_sys (flag : Str) (o : ClaudeOptions) (hs : sysNoExp o)
    (hfp : ∀ c ∈ flag, plainChar c = true) (hfne : flag ≠ []) (cur : Str) :
    bashTokA (sysSeg flag o) 0 cur true = some (cur :: sysWords flag o) := by
  unfold sysSeg sysWords
  match o, hs with
  | ⟨mo, none, cw⟩, _ => exact tok_end cur
  | ⟨mo, some sp, cw⟩, hs =>
    by_cases hsp : sp = []
    · simp only [hsp, if_pos rfl]
      exact tok_end cur
    · simp only [if_neg hsp]
      have hnx : noExp sp := hs sp rfl hsp
      rw [List.cons_append, tok_space_step]
      rw [tok_word_start flag hfp hfne]
      rw [show (' ' :: jsonQuoteStr sp) = ' ' :: (jsonQuoteStr sp ++ []) by simp]
      rw [tok_space_step, tok_quoted sp hnx, tok_end]
      simp

theorem tok_opts (flag : Str) (o : ClaudeOptions) (hm : modelPlain o) (hs : sysNoExp o)
    (hfp : ∀ c ∈ flag, plainChar c = true) (hfne : flag ≠ []) (cur : Str) :
    bashTokA (modelSeg o ++ sysSeg flag o) 0 cur true =
      some (cur :: (modelWords o ++ sysWords flag o)) := by
  match o, hm with
  | ⟨none, sp, cw⟩, _ =>
    rw [show modelSeg ⟨none, sp, cw⟩ = [] from rfl, List.nil_append]
    rw [show modelWords ⟨none, sp, cw⟩ = [] from rfl, List.nil_append]
    exact tok_sys flag _ hs hfp hfne cur
  | ⟨some m, sp, cw⟩, hm =>
    by_cases hmp : m = []
    · rw [show modelSeg ⟨some m, sp, cw⟩ = [] by simp [modelSeg, hmp], List.nil_append]
      rw [show modelWords ⟨some m, sp, cw⟩ = [] by simp [modelWords, hmp], List.nil_append]
      exact tok_sys flag _ hs hfp hfne cur
    · rw [show modelSeg ⟨some m, sp, cw⟩ = lit " --model " ++ m by simp [modelSeg, hmp]]
      rw [show modelWords ⟨some m, sp, cw⟩ = [lit "--model", m] by simp [modelWords, hmp]]
      rw [show (lit " --model " ++ m) ++ sysSeg flag ⟨some m, sp, cw⟩ =
          ' ' :: (lit "--model" ++ (' ' :: (m ++ sysSeg flag ⟨some m, sp, cw⟩))) by
        simp [lit]]
      rw [tok_space_step]
      rw [tok_word_start (lit "--model") (by decide) (by decide)]
      rw [tok_space_step]
      rw [tok_word_start m (hm m rfl hmp) hmp]
      rw [tok_sys flag _ hs hfp hfne m]
      simp

/-- Consuming the shared command tail: the -p flag, the quoted prompt, the
output format flag and value, then the optional model and system prompt
segments. -/
theorem tok_tail (p : Str) (hp : noExp p) (flag : Str) (o : ClaudeOptions)
    (hm : modelPlain o) (hs : sysNoExp o)
    (hfp : ∀ c ∈ flag, plainChar c = true) (hfne : flag ≠ []) (cur : Str) :
    bashTokA (lit " -p " ++ jsonQuoteStr p ++ lit " --output-format json" ++
        modelSeg o ++ sysSeg flag o) 0 cur true =
      some (cur :: lit "-p" :: shellSeenStr p :: lit "--output-format" :: lit "json" ::
        (modelWords o ++ sysWords flag o)) := by
  rw [show lit " -p " ++ jsonQuoteStr p ++ lit " --output-format json" ++
      modelSeg o ++ sysSeg flag o =
      ' ' :: (lit "-p" ++ (' ' :: (jsonQuoteStr p ++ (' ' :: (lit "--output-format" ++
        (' ' :: (lit "json" ++ (modelSeg o ++ sysSeg flag o)))))))) by simp [lit]]
  rw [tok_space_step]
  rw [tok_word_start (lit "-p") (by decide) (by decide)]
  rw [tok_space_step]
  rw [tok_quoted p hp]
  rw [List.nil_append, tok_space_step]
  rw [tok_word_start (lit "--output-format") (by decide) (by decide)]
  rw [tok_space_step]
  rw [tok_word_start (lit "json") (by decide) (by decide)]
  rw [tok_opts flag o hm hs hfp hfne]
  simp

theorem buildStart_decomp (p : Str) (o : ClaudeOptions) :
    buildClaudeCommand p o =
      lit "claude" ++ (lit " -p " ++ jsonQuoteStr p ++ lit " --output-format json" ++
        modelSeg o ++ sysSeg (lit "--system-prompt") o) := by
  obtain ⟨mo, sp, cw⟩ := o
  unfold buildClaudeCommand modelSeg sysSeg
  cases mo with
  | none =>
    cases sp with
    | none => simp [lit]
    | some s => by_cases h : s = [] <;> simp [lit, h]
  | some m =>
    cases sp with
    | none => by_cases hm2 : m = [] <;> simp [lit, hm2]
    | some s => by_cases hm2 : m = [] <;> by_cases h : s = [] <;> simp [lit, hm2, h]

/-- Tokenization of the start command: the fixed skeleton carries no
continuation flag, and the system prompt uses the replace-semantics flag. -/
theorem start_tokens (p : Str) (o : ClaudeOptions) (hp : noExp p) (hm : modelPlain o)
    (hs : sysNoExp o) :
    bashTokens (buildClaudeCommand p o) =
      some (lit "claude" :: lit "-p" :: shellSeenStr p :: lit "--output-format" :: lit "json" ::
        (modelWords o ++ sysWords (lit "--system-prompt") o)) := by
  rw [buildStart_decomp]
  unfold bashTokens
  rw [tok_word_start (lit "claude") (by decide) (by decide)]
  rw [tok_tail p hp (lit "--system-prompt") o hm hs (by decide) (by decide)]

def replyHeadWords (sid : Option Str) : List Str :=
  match sid with
  | some s => if s = [] then [lit "claude", lit "-c"] else [lit "claude", lit "-r", s]
  | none => [lit "claude", lit "-c"]

theorem buildReply_decomp_c (p : Str) (o : ClaudeOptions) (sid : Option Str)
    (h : sid = none ∨ sid = some []) :
    buildClaudeReplyCommand p sid o =
      lit "claude" ++ (' ' :: (lit "-c" ++ (lit " -p " ++ jsonQuoteStr p ++
        lit " --output-format json" ++ modelSeg o ++ sysSeg (lit "--append-system-prompt") o))) := by
  obtain ⟨mo, sp, cw⟩ := o
  rcases h with rfl | rfl <;>
  · unfold buildClaudeReplyCommand modelSeg sysSeg
    cases mo with
    | none =>
      cases sp with
      | none => simp [lit]
      | some s => by_cases h : s = [] <;> simp [lit, h]
    | some m =>
      cases sp with
      | none => by_cases hm2 : m = [] <;> simp [lit, hm2]
      | some s => by_cases hm2 : m = [] <;> by_cases h : s = [] <;> simp [lit, hm2, h]

theorem buildReply_decomp_r (p : Str) (o : ClaudeOptions) (s : Str) (hne : s ≠ []) :
    buildClaudeReplyCommand p (some s) o =
      lit "claude" ++ (' ' :: (lit "-r" ++ (' ' :: (s ++ (lit " -p " ++ jsonQuoteStr p ++
        lit " --output-format json" ++ modelSeg o ++
        sysSeg (lit "--append-system-prompt") o))))) := by
  obtain ⟨mo, sp, cw⟩ := o
  unfold buildClaudeReplyCommand modelSeg sysSeg
  cases mo with
  | none =>
    cases sp with
    | none => simp [lit, hne]
    | some s2 => by_cases h : s2 = [] <;> simp [lit, hne, h]
  | some m =>
    cases sp with
    | none => by_cases hm2 : m = [] <;> simp [lit, hne, hm2]
    | some s2 => by_cases hm2 : m = [] <;> by_cases h : s2 = [] <;> simp [lit, hne, hm2, h]

/-- Tokenization of the continue command: flag -c with no identifier, flag -r
followed by the identifier otherwise, and the append-semantics system prompt
flag. -/
theorem reply_tokens (p : Str) (sid : Option Str) (o : ClaudeOptions) (hp : noExp p)
    (hm : modelPlain o) (hs : sysNoExp o)
    (hsid : ∀ s, sid = some s → s ≠ [] → ∀ c ∈ s, plainChar c = true) :
    bashTokens (buildClaudeReplyCommand p sid o) =
      some (replyHeadWords sid ++ lit "-p" :: shellSeenStr p :: lit "--output-format" ::
        lit "json" :: (modelWords o ++ sysWords (lit "--append-system-prompt") o)) := by
  have hc : ∀ (h : sid = none ∨ sid = some []),
      bashTokens (buildClaudeReplyCommand p sid o) =
        some (lit "claude" :: lit "-c" :: lit "-p" :: shellSeenStr p :: lit "--output-format" ::
          lit "json" :: (modelWords o ++ sysWords (lit "--append-system-prompt") o)) := by
    intro h
    rw [buildReply_decomp_c p o sid h]
    unfold bashTokens
    rw [tok_word_start (lit "claude") (by decide) (by decide)]
    rw [tok_space_step]
    rw [tok_word_start (lit "-c") (by decide) (by decide)]
    rw [tok_tail p hp (lit "--append-system-prompt") o hm hs (by decide) (by decide)]
    simp
  match sid with
  | none => exact hc (Or.inl rfl)
  | some s =>
    by_cases hse : s = []
    · subst hse
      exact hc (Or.inr rfl)
    · rw [buildReply_decomp_r p o s hse]
      unfold bashTokens
      rw [tok_word_start (lit "claude") (by decide) (by decide)]
      rw [tok_space_step]
      rw [tok_word_start (lit "-r") (by decide) (by decide)]
      rw [tok_space_step]
      rw [tok_word_start s (hsid s rfl hse) hse]
      rw [tok_tail p hp (lit "--append-system-prompt") o hm hs (by decide) (by decide)]
      simp [replyHeadWords, hse]

theorem shellSeen_cases (c : Char) : shellSeen c = [c] ∨ bsChar ∈ shellSeen c := by
  unfold shellSeen
  split
  · exact Or.inl rfl
  unfold jsonEscapeChar
  repeat' split
  all_goals first
    | exact Or.inl rfl
    | exact Or.inr (List.mem_cons_self _ _)

/-- A shell-recovered prompt word containing no backslash is the original
prompt unchanged. -/
theorem shellSeenStr_no_bs (s : Str) (h : bsChar ∉ shellSeenStr s) : shellSeenStr s = s := by
  induction s with
  | nil => rfl
  | cons c t ih =>
    rw [show shellSeenStr (c :: t) = shellSeen c ++ shellSeenStr t by
      simp [shellSeenStr, List.flatMap_cons]] at h ⊢
    rcases shellSeen_cases c with hc | hc
    · rw [hc]
      rw [ih (fun hm => h (List.mem_append_right _ hm))]
      rfl
    · exact absurd (List.mem_append_left _ hc) h

/-- Only the prompt equal to a given backslash-free word can produce that
word at the shell level. -/
theorem shellSeenStr_inv (s t : Str) (ht : bsChar ∉ t) (h : shellSeenStr s = t) : s = t := by
  have hb : bsChar ∉ shellSeenStr s := h ▸ ht
  rw [← shellSeenStr_no_bs s hb, h]

theorem hexVal_hexDigit (n : Nat) (h : n < 16) : hexVal (hexDigit n) = some n := by
  interval_cases n <;> decide

theorem skipWS_cons_not (c : Char) (h : isJsonWS c = false) (t : Str) :
    skipWS (c :: t) = c :: t := by
  simp [skipWS, List.dropWhile_cons, h]

theorem psb_plain (c : Char) (h1 : ¬ c = qChar) (h2 : ¬ c = bsChar) (h3 : ¬ c.toNat < 32)
    (cs : Str) :
    parseStringBody (c :: cs) = (parseStringBody cs).map fun p => (c :: p.1, p.2) := by
  rw [parseStringBody.eq_def]
  simp [h1, h2, h3]

theorem psb_esc_q (cs : Str) :
    parseStringBody (bsChar :: qChar :: cs) = (parseStringBody cs).map fun p =>
      (qChar :: p.1, p.2) := by
  rw [parseStringBody.eq_def]
  simp [show ¬ bsChar = qChar by decide]

theorem psb_esc_bs (cs : Str) :
    parseStringBody (bsChar :: bsChar :: cs) = (parseStringBody cs).map fun p =>
      (bsChar :: p.1, p.2) := by
  rw [parseStringBody.eq_def]
  simp [show ¬ bsChar = qChar by decide]

theorem psb_esc_b (cs : Str) :
    parseStringBody (bsChar :: 'b' :: cs) = (parseStringBody cs).map fun p =>
      (Char.ofNat 8 :: p.1, p.2) := by
  rw [parseStringBody.eq_def]
  simp [show ¬ bsChar = qChar by decide, show ¬ 'b' = qChar by decide,
    show ¬ 'b' = bsChar by decide]

theorem psb_esc_f (cs : Str) :
    parseStringBody (bsChar :: 'f' :: cs) = (parseStringBody cs).map fun p =>
      (Char.ofNat 12 :: p.1, p.2) := by
  rw [parseStringBody.eq_def]
  simp [show ¬ bsChar = qChar by decide, show ¬ 'f' = qChar by decide,
    show ¬ 'f' = bsChar by decide]

theorem psb_esc_n (cs : Str) :
    parseStringBody (bsChar :: 'n' :: cs) = (parseStringBody cs).map fun p =>
      (Char.ofNat 10 :: p.1, p.2) := by
  rw [parseStringBody.eq_def]
  simp [show ¬ bsChar = qChar by decide, show ¬ 'n' = qChar by decide,
    show ¬ 'n' = bsChar by decide]

theorem psb_esc_r (cs : Str) :
    parseStringBody (bsChar :: 'r' :: cs) = (parseStringBody cs).map fun p =>
      (Char.ofNat 13 :: p.1, p.2) := by
  rw [parseStringBody.eq_def]
  simp [show ¬ bsChar = qChar by decide, show ¬ 'r' = qChar by decide,
    show ¬ 'r' = bsChar by decide]

theorem psb_esc_t (cs : Str) :
    parseStringBody (bsChar :: 't' :: cs) = (parseStringBody cs).map fun p =>
      (Char.ofNat 9 :: p.1, p.2) := by
  rw [parseStringBody.eq_def]
  simp [show ¬ bsChar = qChar by decide, show ¬ 't' = qChar by decide,
    show ¬ 't' = bsChar by decide]

theorem psb_esc_u (h1 h2 : Char) (n1 n2 : Nat) (e1 : hexVal h1 = some n1)
    (e2 : hexVal h2 = some n2) (hn : ¬ (55296 ≤ n1 * 16 + n2 ∧ n1 * 16 + n2 < 57344)) (cs : Str) :
    parseStringBody (bsChar :: 'u' :: '0' :: '0' :: h1 :: h2 :: cs) =
      (parseStringBody cs).map fun p => (Char.ofNat (n1 * 16 + n2) :: p.1, p.2) := by
  rw [parseStringBody.eq_def]
  have harith : ((0 * 16 + 0) * 16 + n1) * 16 + n2 = n1 * 16 + n2 := by ring
  simp [e1, e2, harith, hn, show hexVal '0' = some 0 from rfl,
    show ¬ bsChar = qChar by decide, show ¬ 'u' = qChar by decide,
    show ¬ 'u' = bsChar by decide]

/-- Parsing back the JSON escape of a string recovers the string exactly. -/
theorem psb_escape (s : Str) : ∀ rest : Str,
    parseStringBody (jsonEscape s ++ qChar :: rest) = some (s, rest) := by
  induction s with
  | nil =>
    intro rest
    rw [show jsonEscape [] ++ qChar :: rest = qChar :: rest by simp [jsonEscape]]
    rw [parseStringBody.eq_def]
    simp
  | cons c t ih =>
    intro rest
    rw [show jsonEscape (c :: t) ++ qChar :: rest =
        jsonEscapeChar c ++ (jsonEscape t ++ qChar :: rest) by
      simp [jsonEscape, List.flatMap_cons]]
    unfold jsonEscapeChar
    by_cases hq : c = qChar
    · subst hq
      rw [if_pos rfl]
      rw [show [bsChar, qChar] ++ (jsonEscape t ++ qChar :: rest) =
          bsChar :: qChar :: (jsonEscape t ++ qChar :: rest) from rfl]
      rw [psb_esc_q, ih rest]
      rfl
    rw [if_neg hq]
    by_cases hb : c = bsChar
    · subst hb
      rw [if_pos rfl]
      rw [show [bsChar, bsChar] ++ (jsonEscape t ++ qChar :: rest) =
          bsChar :: bsChar :: (jsonEscape t ++ qChar :: rest) from rfl]
      rw [psb_esc_bs, ih rest]
      rfl
    rw [if_neg hb]
    by_cases h8 : c = Char.ofNat 8
    · subst h8
      rw [if_pos rfl]
      rw [show [bsChar, 'b'] ++ (jsonEscape t ++ qChar :: rest) =
          bsChar :: 'b' :: (jsonEscape t ++ qChar :: rest) from rfl]
      rw [psb_esc_b, ih rest]
      rfl
    rw [if_neg h8]
    by_cases h12 : c = Char.ofNat 12
    · subst h12
      rw [if_pos rfl]
      rw [show [bsChar, 'f'] ++ (jsonEscape t ++ qChar :: rest) =
          bsChar :: 'f' :: (jsonEscape t ++ qChar :: rest) from rfl]
      rw [psb_esc_f, ih rest]
      rfl
    rw [if_neg h12]
    by_cases h10 : c = Char.ofNat 10
    · subst h10
      rw [if_pos rfl]
      rw [show [bsChar, 'n'] ++ (jsonEscape t ++ qChar :: rest) =
          bsChar :: 'n' :: (jsonEscape t ++ qChar :: rest) from rfl]
      rw [psb_esc_n, ih rest]
      rfl
    rw [if_neg h10]
    by_cases h13 : c = Char.ofNat 13
    · subst h13
      rw [if_pos rfl]
      rw [show [bsChar, 'r'] ++ (jsonEscape t ++ qChar :: rest) =
          bsChar :: 'r' :: (jsonEscape t ++ qChar :: rest) from rfl]
      rw [psb_esc_r, ih rest]
      rfl
    rw [if_neg h13]
    by_cases h9 : c = Char.ofNat 9
    · subst h9
      rw [if_pos rfl]
      rw [show [bsChar, 't'] ++ (jsonEscape t ++ qChar :: rest) =
          bsChar :: 't' :: (jsonEscape t ++ qChar :: rest) from rfl]
      rw [psb_esc_t, ih rest]
      rfl
    rw [if_neg h9]
    by_cases hc : c.toNat < 32
    · rw [if_pos hc]
      rw [show [bsChar, 'u', '0', '0', hexDigit (c.toNat / 16), hexDigit (c.toNat % 16)] ++
          (jsonEscape t ++ qChar :: rest) =
          bsChar :: 'u' :: '0' :: '0' :: hexDigit (c.toNat / 16) :: hexDigit (c.toNat % 16) ::
            (jsonEscape t ++ qChar :: rest) from rfl]
      have k1 : c.toNat / 16 < 16 := by omega
      have k2 : c.toNat % 16 < 16 := by omega
      rw [psb_esc_u _ _ _ _ (hexVal_hexDigit _ k1) (hexVal_hexDigit _ k2) (by omega)]
      rw [ih rest]
      have hv : c.toNat / 16 * 16 + c.toNat % 16 = c.toNat := by omega
      simp [hv, Char.ofNat_toNat]
    · rw [if_neg hc]
      rw [show [c] ++ (jsonEscape t ++ qChar :: rest) = c :: (jsonEscape t ++ qChar :: rest)
        from rfl]
      rw [psb_plain c hq hb hc, ih rest]
      rfl

theorem pv_dispatch_q (fuel : Nat) (X : Str) :
    parseF (fuel + 1) .pval (qChar :: X) =
      (parseStringBody X).map fun p => (.jstr p.1, p.2) := rfl

theorem pv_str (fuel : Nat) (s rest : Str) :
    parseF (fuel + 1) .pval (jsonQuoteStr s ++ rest) = some (.jstr s, rest) := by
  rw [show jsonQuoteStr s ++ rest = qChar :: (jsonEscape s ++ qChar :: rest) by
    simp [jsonQuoteStr]]
  rw [pv_dispatch_q, psb_escape]
  rfl

theorem pv_true (fuel : Nat) (rest : Str) :
    parseF (fuel + 1) .pval (lit "true" ++ rest) = some (.jbool true, rest) := rfl

theorem pv_false (fuel : Nat) (rest : Str) :
    parseF (fuel + 1) .pval (lit "false" ++ rest) = some (.jbool false, rest) := rfl

/-- One object-field step of the parser: a quoted key, a colon, then the
value parse and the loop continuation. -/
theorem pobj_field_step (fuel : Nat) (acc : List (Str × JVal)) (k : Str) (rest : Str) :
    parseF (fuel + 1) (.pobj acc) (jsonQuoteStr k ++ ':' :: rest) =
      match parseF fuel .pval rest with
      | some (v, r4) =>
        (match skipWS r4 with
         | c3 :: r5 =>
           if c3 = ',' then parseF fuel (.pobj (insertField acc k v)) r5
           else if c3 = rbChar then some (.jobj (insertField acc k v), r5)
           else none
         | [] => none)
      | none => none := by
  rw [show jsonQuoteStr k ++ ':' :: rest = qChar :: (jsonEscape k ++ qChar :: (':' :: rest)) by
    simp [jsonQuoteStr]]
  rw [parseF.eq_def]
  dsimp only
  rw [skipWS_cons_not qChar (by decide)]
  dsimp only
  rw [if_pos rfl, psb_escape]
  dsimp only
  rw [skipWS_cons_not ':' (by decide)]
  dsimp only
  rw [if_pos rfl]

def mkRecord (a b : Str) (e : Bool) : JVal :=
  .jobj [(lit "result", .jstr a), (lit "session_id", .jstr b), (lit "is_error", .jbool e)]

theorem stringify_mkRecord (a b : Str) (e : Bool) :
    stringify (mkRecord a b e) =
      lbChar :: (jsonQuoteStr (lit "result") ++ ':' :: (jsonQuoteStr a ++ ',' ::
        (jsonQuoteStr (lit "session_id") ++ ':' :: (jsonQuoteStr b ++ ',' ::
        (jsonQuoteStr (lit "is_error") ++ ':' :: ((if e then lit "true" else lit "false") ++
          [rbChar])))))) := by
  cases e <;> simp [mkRecord, stringify, stringifyFields, commaJoin]

theorem pv_obj_qfield (fuel : Nat) (Y : Str) :
    parseF (fuel + 1) .pval (lbChar :: (qChar :: Y)) = parseF fuel (.pobj []) (qChar :: Y) := rfl

theorem parse_mkRecord (a b : Str) (e : Bool) (n : Nat) :
    parseF (n + 5) .pval (stringify (mkRecord a b e)) = some (mkRecord a b e, []) := by
  rw [stringify_mkRecord]
  rw [show jsonQuoteStr (lit "result") ++ ':' :: (jsonQuoteStr a ++ ',' ::
      (jsonQuoteStr (lit "session_id") ++ ':' :: (jsonQuoteStr b ++ ',' ::
      (jsonQuoteStr (lit "is_error") ++ ':' :: ((if e then lit "true" else lit "false") ++
        [rbChar]))))) =
      qChar :: (jsonEscape (lit "result") ++ qChar :: (':' :: (jsonQuoteStr a ++ ',' ::
      (jsonQuoteStr (lit "session_id") ++ ':' :: (jsonQuoteStr b ++ ',' ::
      (jsonQuoteStr (lit "is_error") ++ ':' :: ((if e then lit "true" else lit "false") ++
        [rbChar]))))))) by simp [jsonQuoteStr]]
  rw [show n + 5 = (n + 4) + 1 from rfl]
  rw [pv_obj_qfield]
  rw [show qChar :: (jsonEscape (lit "result") ++ qChar :: (':' :: (jsonQuoteStr a ++ ',' ::
      (jsonQuoteStr (lit "session_id") ++ ':' :: (jsonQuoteStr b ++ ',' ::
      (jsonQuoteStr (lit "is_error") ++ ':' :: ((if e then lit "true" else lit "false") ++
        [rbChar]))))))) =
      jsonQuoteStr (lit "result") ++ ':' :: (jsonQuoteStr a ++ ',' ::
      (jsonQuoteStr (lit "session_id") ++ ':' :: (jsonQuoteStr b ++ ',' ::
      (jsonQuoteStr (lit "is_error") ++ ':' :: ((if e then lit "true" else lit "false") ++
        [rbChar]))))) by simp [jsonQuoteStr]]
  rw [show n + 4 = (n + 3) + 1 from rfl]
  rw [pobj_field_step]
  rw [show n + 3 = (n + 2) + 1 from rfl]
  rw [pv_str]
  dsimp only
  rw [skipWS_cons_not ',' (by decide)]
  dsimp only
  rw [if_pos rfl]
  rw [show n + 2 = (n + 1) + 1 from rfl]
  rw [pobj_field_step]
  rw [pv_str]
  dsimp only
  rw [skipWS_cons_not ',' (by decide)]
  dsimp only
  rw [if_pos rfl]
  rw [pobj_field_step]
  cases e
  · rw [show ((if (false : Bool) then lit "true" else lit "false") ++ [rbChar]) =
        lit "false" ++ [rbChar] by simp]
    rw [pv_false n]
    rfl
  · rw [show ((if (true : Bool) then lit "true" else lit "false") ++ [rbChar]) =
        lit "true" ++ [rbChar] by simp]
    rw [pv_true n]
    rfl

theorem jsonParse_mkRecord (a b : Str) (e : Bool) :
    jsonParse (stringify (mkRecord a b e)) = some (mkRecord a b e) := by
  unfold jsonParse
  obtain ⟨n, hn⟩ : ∃ n, (stringify (mkRecord a b e)).length + 1 = n + 5 := by
    refine ⟨(stringify (mkRecord a b e)).length - 4, ?_⟩
    have h4 : 4 ≤ (stringify (mkRecord a b e)).length := by
      rw [stringify_mkRecord]
      simp
      omega
    omega
  rw [hn, parse_mkRecord]
  rfl

theorem dropWhile_idem (p : α → Bool) (l : List α) :
    (l.dropWhile p).dropWhile p = l.dropWhile p := by
  induction l with
  | nil => rfl
  | cons a t ih =>
    by_cases h : p a
    · simp [List.dropWhile_cons, h, ih]
    · simp [List.dropWhile_cons, h]

theorem dropWhile_head_false (p : α → Bool) (l : List α) (a : α) (t : List α)
    (h : l.dropWhile p = a :: t) : p a = false := by
  induction l with
  | nil => simp [List.dropWhile] at h
  | cons b u ih =>
    rw [List.dropWhile_cons] at h
    by_cases hb : p b
    · exact ih (by simpa [hb] using h)
    · rw [if_neg hb] at h
      cases h
      simpa using hb

theorem dropWhile_of_initial_part (p : α → Bool) (l l' : List α)
    (hpre : l' <+: l.dropWhile p) : l'.dropWhile p = l' := by
  match l', hpre with
  | [], _ => rfl
  | a :: t, hpre =>
    obtain ⟨r, hr⟩ := hpre
    have ha : p a = false := dropWhile_head_false p l a (t ++ r) hr.symm
    simp [List.dropWhile_cons, ha]

/-- The JavaScript trim operation is idempotent. -/
theorem jsTrim_idem (s : Str) : jsTrim (jsTrim s) = jsTrim s := by
  unfold jsTrim
  have h2 : (((s.dropWhile isJsWhitespace).reverse).dropWhile isJsWhitespace).reverse <+:
      ((s.dropWhile isJsWhitespace).reverse).reverse :=
    List.reverse_prefix.mpr (List.dropWhile_suffix _)
  have h1 : ((((s.dropWhile isJsWhitespace).reverse).dropWhile isJsWhitespace).reverse) <+:
      s.dropWhile isJsWhitespace := by simpa using h2
  rw [dropWhile_of_initial_part _ _ _ h1]
  rw [List.reverse_reverse, dropWhile_idem]

theorem sidOf_truthy_or_none (json : JVal) :
    sidOf json = none ∨ optTruthy (sidOf json) = true := by
  unfold sidOf
  rcases hg : jsGetField json (lit "session_id") with _ | w
  · exact Or.inl rfl
  · by_cases ht : jsTruthy w
    · right
      simp [ht, optTruthy]
    · left
      simp [ht]

theorem parsed_sid_cases (stdout : Str) :
    (parseClaudeJsonResponse stdout).sessionId = none ∨
    optTruthy ((parseClaudeJsonResponse stdout).sessionId) = true := by
  unfold parseClaudeJsonResponse
  rcases hj : jsonParse stdout with _ | v
  · exact Or.inl rfl
  · cases v with
    | jnull => exact Or.inl rfl
    | jbool b => dsimp only; exact sidOf_truthy_or_none _
    | jnum i => dsimp only; exact sidOf_truthy_or_none _
    | jstr s => dsimp only; exact sidOf_truthy_or_none _
    | jarr l => dsimp only; exact sidOf_truthy_or_none _
    | jobj fs => dsimp only; exact sidOf_truthy_or_none _

theorem sid_if_reduce (stdout : Str) :
    (if optTruthy (parseClaudeJsonResponse stdout).sessionId
      then (parseClaudeJsonResponse stdout).sessionId else none) =
      (parseClaudeJsonResponse stdout).sessionId := by
  rcases parsed_sid_cases stdout with h | h
  · rw [h]
    simp [optTruthy]
  · rw [if_pos h]

/-- C1: the start operation builds the command line with the JSON escaping
transform, whose output the shell does not invert on newlines: for the
prompt text with a real embedded newline, the shell-parsed command delivers
a prompt argument holding a literal backslash and letter n instead of the
newline, so the external tool does not receive the exact original text. The
source intends the transform to be shell-safe (the spec calls any escaping
defect a command-injection or truncation bug), hence this is a code bug in
executeClaude of src/claude-service.ts. -/
theorem c1_escaping_newline_code_bug :
    bashTokens (buildClaudeCommand (lit "hello\nworld") ⟨none, none, none⟩) =
      some [lit "claude", lit "-p", lit "hello\\nworld", lit "--output-format", lit "json"] ∧
    lit "hello\nworld" ≠ lit "hello\\nworld" := by
  constructor
  · rfl
  · decide

/-- C2 counterexample: for the record with an empty result text, the
interpreter returns the whole re-serialized record as the response, not the
empty result value, so the three values are not recovered exactly. -/
theorem c2_counterexample :
    parseClaudeJsonResponse (stringify (mkRecord [] (lit "abc") false)) =
      { response := .jstr (stringify (mkRecord [] (lit "abc") false)),
        sessionId := some (.jstr (lit "abc")), isError := .jbool false } ∧
    JVal.jstr (stringify (mkRecord [] (lit "abc") false)) ≠ JVal.jstr [] := by
  constructor
  · rfl
  · intro h
    exact absurd (JVal.jstr.inj h) (by decide)

/-- C2 (amended): for every structured record with fields result,
session_id and is_error whose result and session_id texts are non-empty,
interpreting the serialized record recovers exactly those three values. A
present-but-empty result yields the re-serialized record instead, and a
present-but-empty session_id yields no session id. -/
theorem c2_roundtrip (a b : Str) (e : Bool) (ha : a ≠ []) (hb : b ≠ []) :
    parseClaudeJsonResponse (stringify (mkRecord a b e)) =
      { response := .jstr a, sessionId := some (.jstr b), isError := .jbool e } := by
  unfold parseClaudeJsonResponse
  rw [jsonParse_mkRecord]
  cases e <;>
    simp [mkRecord, respOf, sidOf, errOf, jsGetField, jsGetFieldList, jsTruthy, ha, hb,
      show ¬ lit "result" = lit "session_id" by decide,
      show ¬ lit "result" = lit "is_error" by decide,
      show ¬ lit "session_id" = lit "is_error" by decide]

/-- C2 witness at a concrete record. -/
theorem c2_roundtrip_witness :
    parseClaudeJsonResponse (stringify (mkRecord (lit "Hi!") (lit "abc") true)) =
      { response := .jstr (lit "Hi!"), sessionId := some (.jstr (lit "abc")),
        isError := .jbool true } :=
  c2_roundtrip (lit "Hi!") (lit "abc") true (by decide) (by decide)

/-- C3: a continuation invocation made with a prior identifier X, whose
subprocess output interprets to no session id, yields a result carrying
sessionId X: the supplied identifier is never lost. -/
theorem c3_continuation_fallback (execF : ExecFn) (prompt : Str) (x : Str) (o : ClaudeOptions)
    (stdout stderr : Str) (hx : x ≠ [])
    (hexec : execF (buildClaudeReplyCommand prompt (some x) o) o.cwd = .ok (stdout, stderr))
    (hsid : (parseClaudeJsonResponse stdout).sessionId = none) :
    executeClaudeReply execF prompt (some x) o =
      .ok { response := (parseClaudeJsonResponse stdout).response,
            sessionId := some (.jstr x) } := by
  unfold executeClaudeReply
  rw [hexec]
  dsimp only
  rw [hsid]
  simp [optTruthy, hx]

/-- C3 witness at a concrete execution. -/
theorem c3_continuation_fallback_witness :
    executeClaudeReply (fun _ _ => .ok (lit "oops", [])) (lit "hi") (some (lit "abc"))
        ⟨none, none, none⟩ =
      .ok { response := .jstr (lit "oops"), sessionId := some (.jstr (lit "abc")) } :=
  c3_continuation_fallback (fun _ _ => .ok (lit "oops", [])) (lit "hi") (lit "abc")
    ⟨none, none, none⟩ (lit "oops") [] (by decide) rfl rfl

/-- C4 counterexample: a request with an empty prompt is not rejected before
a subprocess is spawned: the start operation completes normally and its
result is determined by the injected execution function, which is therefore
invoked. -/
theorem c4_counterexample :
    executeClaude (fun _ _ => .ok (lit "\x7b\"result\":\"ok\"\x7d", [])) [] ⟨none, none, none⟩ =
      .ok { response := .jstr (lit "ok"), sessionId := none } ∧
    executeClaude (fun _ _ => .ok (lit "\x7b\"result\":\"other\"\x7d", [])) []
        ⟨none, none, none⟩ =
      .ok { response := .jstr (lit "other"), sessionId := none } := by
  exact ⟨rfl, rfl⟩

/-- C4 (amended): the operations perform no build-time validation of the
prompt: for an empty prompt, both the start and the continue operation
invoke the execution function on the built command and return the
interpretation of its stdout. -/
theorem c4_no_validation (execF : ExecFn) (o : ClaudeOptions) (stdout stderr : Str)
    (h1 : execF (buildClaudeCommand [] o) o.cwd = .ok (stdout, stderr))
    (h2 : execF (buildClaudeReplyCommand [] none o) o.cwd = .ok (stdout, stderr)) :
    executeClaude execF [] o =
      .ok { response := (parseClaudeJsonResponse stdout).response,
            sessionId := (parseClaudeJsonResponse stdout).sessionId } ∧
    executeClaudeReply execF [] none o =
      .ok { response := (parseClaudeJsonResponse stdout).response,
            sessionId := (parseClaudeJsonResponse stdout).sessionId } := by
  constructor
  · unfold executeClaude
    rw [h1]
  · unfold executeClaudeReply
    rw [h2]
    dsimp only
    rw [sid_if_reduce]

/-- C4 witness at a concrete execution. -/
theorem c4_no_validation_witness :
    executeClaude (fun _ _ => .ok (lit "plain", [])) [] ⟨none, none, none⟩ =
      .ok { response := .jstr (lit "plain"), sessionId := none } ∧
    executeClaudeReply (fun _ _ => .ok (lit "plain", [])) [] none ⟨none, none, none⟩ =
      .ok { response := .jstr (lit "plain"), sessionId := none } :=
  c4_no_validation (fun _ _ => .ok (lit "plain", [])) ⟨none, none, none⟩ (lit "plain") []
    rfl rfl

theorem not_mem_modelWords (o : ClaudeOptions) (w : Str)
    (h : ∀ m, o.model = some m → m ≠ [] → m ≠ w) (hw : w ≠ lit "--model") :
    w ∉ modelWords o := by
  unfold modelWords
  rcases hm : o.model with _ | m
  · simp
  · by_cases hme : m = []
    · simp [hme]
    · intro hmem
      simp [hme] at hmem
      rcases hmem with h1 | h1
      · exact hw h1
      · exact h m hm hme h1.symm

theorem not_mem_sysWords (flag : Str) (o : ClaudeOptions) (w : Str)
    (h : ∀ sp, o.systemPrompt = some sp → sp ≠ [] → sp ≠ w)
    (hwf : w ≠ flag) (hbs : bsChar ∉ w) :
    w ∉ sysWords flag o := by
  unfold sysWords
  rcases hsp : o.systemPrompt with _ | sp
  · simp
  · by_cases hse : sp = []
    · simp [hse]
    · intro hmem
      simp [hse] at hmem
      rcases hmem with h1 | h1
      · exact hwf h1
      · exact h sp hsp hse (shellSeenStr_inv sp w hbs h1.symm)

/-- C5: the start command line carries no continuation flag as a word; the
continue command with no identifier carries the word -c and no -r; the
continue command with identifier Y starts with the words claude, -r, Y and
carries no -c. The prompt, model and system prompt are assumed not to be the
literal flag tokens themselves, and expansion characters are outside the
shell model. -/
theorem c5_mode_selection (p : Str) (o : ClaudeOptions) (sid : Str)
    (hp : noExp p) (hm : modelPlain o) (hs : sysNoExp o)
    (hpc : p ≠ lit "-c") (hpr : p ≠ lit "-r")
    (hmf : ∀ m, o.model = some m → m ≠ [] → m ≠ lit "-c" ∧ m ≠ lit "-r")
    (hsf : ∀ sp, o.systemPrompt = some sp → sp ≠ [] → sp ≠ lit "-c" ∧ sp ≠ lit "-r")
    (hsidp : ∀ c ∈ sid, plainChar c = true) (hsidne : sid ≠ []) (hsidc : sid ≠ lit "-c") :
    (∃ ws, bashTokens (buildClaudeCommand p o) = some ws ∧
      lit "-c" ∉ ws ∧ lit "-r" ∉ ws) ∧
    (∃ ws, bashTokens (buildClaudeReplyCommand p none o) = some ws ∧
      lit "-c" ∈ ws ∧ lit "-r" ∉ ws) ∧
    (∃ ws, bashTokens (buildClaudeReplyCommand p (some sid) o) = some ws ∧
      ws.take 3 = [lit "claude", lit "-r", sid] ∧ lit "-c" ∉ ws) := by
  have e2 := reply_tokens p none o hp hm hs (fun s hx => by cases hx)
  rw [show replyHeadWords none = [lit "claude", lit "-c"] from rfl] at e2
  have e3 := reply_tokens p (some sid) o hp hm hs
    (fun s hx hne => by cases Option.some.inj hx; exact hsidp)
  rw [show replyHeadWords (some sid) = [lit "claude", lit "-r", sid] by
    simp [replyHeadWords, hsidne]] at e3
  refine ⟨⟨_, start_tokens p o hp hm hs, ?_, ?_⟩, ⟨_, e2, ?_, ?_⟩, ⟨_, e3, ?_, ?_⟩⟩
  · intro hmem
    simp only [List.mem_cons, List.mem_append, List.not_mem_nil, or_false, false_or] at hmem
    rcases hmem with h1 | h1 | h1 | h1 | h1 | h1 | h1 <;>
      first
        | exact absurd h1 (by decide)
        | exact hpc (shellSeenStr_inv p (lit "-c") (by decide) h1.symm)
        | exact not_mem_modelWords o _ (fun m a b => (hmf m a b).1) (by decide) h1
        | exact not_mem_sysWords _ o _ (fun sp a b => (hsf sp a b).1) (by decide) (by decide) h1
  · intro hmem
    simp only [List.mem_cons, List.mem_append, List.not_mem_nil, or_false, false_or] at hmem
    rcases hmem with h1 | h1 | h1 | h1 | h1 | h1 | h1 <;>
      first
        | exact absurd h1 (by decide)
        | exact hpr (shellSeenStr_inv p (lit "-r") (by decide) h1.symm)
        | exact not_mem_modelWords o _ (fun m a b => (hmf m a b).2) (by decide) h1
        | exact not_mem_sysWords _ o _ (fun sp a b => (hsf sp a b).2) (by decide) (by decide) h1
  · simp
  · intro hmem
    simp only [List.cons_append, List.nil_append, List.mem_cons, List.mem_append,
      List.not_mem_nil, or_false, false_or] at hmem
    rcases hmem with h1 | h1 | h1 | h1 | h1 | h1 | h1 | h1 <;>
      first
        | exact absurd h1 (by decide)
        | exact hpr (shellSeenStr_inv p (lit "-r") (by decide) h1.symm)
        | exact not_mem_modelWords o _ (fun m a b => (hmf m a b).2) (by decide) h1
        | exact not_mem_sysWords _ o _ (fun sp a b => (hsf sp a b).2) (by decide) (by decide) h1
  · simp [List.take]
  · intro hmem
    simp only [List.cons_append, List.nil_append, List.mem_cons, List.mem_append,
      List.not_mem_nil, or_false, false_or] at hmem
    rcases hmem with h1 | h1 | h1 | h1 | h1 | h1 | h1 | h1 | h1 <;>
      first
        | exact absurd h1 (by decide)
        | exact hsidc h1.symm
        | exact hpc (shellSeenStr_inv p (lit "-c") (by decide) h1.symm)
        | exact not_mem_modelWords o _ (fun m a b => (hmf m a b).1) (by decide) h1
        | exact not_mem_sysWords _ o _ (fun sp a b => (hsf sp a b).1) (by decide) (by decide) h1

/-- C5 witness at a concrete request. -/
theorem c5_mode_selection_witness :
    (∃ ws, bashTokens (buildClaudeCommand (lit "hello") ⟨some (lit "opus"), some (lit "be nice"),
        none⟩) = some ws ∧ lit "-c" ∉ ws ∧ lit "-r" ∉ ws) ∧
    (∃ ws, bashTokens (buildClaudeReplyCommand (lit "hello") none ⟨some (lit "opus"),
        some (lit "be nice"), none⟩) = some ws ∧ lit "-c" ∈ ws ∧ lit "-r" ∉ ws) ∧
    (∃ ws, bashTokens (buildClaudeReplyCommand (lit "hello") (some (lit "abc123"))
        ⟨some (lit "opus"), some (lit "be nice"), none⟩) = some ws ∧
      ws.take 3 = [lit "claude", lit "-r", lit "abc123"] ∧ lit "-c" ∉ ws) :=
  c5_mode_selection (lit "hello") ⟨some (lit "opus"), some (lit "be nice"), none⟩
    (lit "abc123") (by decide)
    (fun m hm hne => by cases Option.some.inj hm; decide)
    (fun sp hsp hne => by cases Option.some.inj hsp; decide)
    (by decide) (by decide)
    (fun m hm hne => by cases Option.some.inj hm; decide)
    (fun sp hsp hne => by cases Option.some.inj hsp; decide)
    (by decide) (by decide) (by decide)

/-- C6: with a system prompt present, the start command line carries the
replace-semantics word --system-prompt and not the append-semantics word,
while the continue command line (with or without an identifier) carries
--append-system-prompt and not --system-prompt. The request fields are
assumed not to be the literal flag tokens themselves, and expansion
characters are outside the shell model. -/
theorem c6_sysprompt_asymmetry (p : Str) (o : ClaudeOptions) (sid : Option Str) (sp : Str)
    (hp : noExp p) (hm : modelPlain o) (hs : sysNoExp o)
    (hspv : o.systemPrompt = some sp) (hspne : sp ≠ [])
    (hpf : p ≠ lit "--system-prompt" ∧ p ≠ lit "--append-system-prompt")
    (hmf : ∀ m, o.model = some m → m ≠ [] →
      m ≠ lit "--system-prompt" ∧ m ≠ lit "--append-system-prompt")
    (hspf : sp ≠ lit "--system-prompt" ∧ sp ≠ lit "--append-system-prompt")
    (hsid : ∀ s, sid = some s → s ≠ [] → (∀ c ∈ s, plainChar c = true) ∧
      s ≠ lit "--system-prompt" ∧ s ≠ lit "--append-system-prompt") :
    (∃ ws, bashTokens (buildClaudeCommand p o) = some ws ∧
      lit "--system-prompt" ∈ ws ∧ lit "--append-system-prompt" ∉ ws) ∧
    (∃ ws, bashTokens (buildClaudeReplyCommand p sid o) = some ws ∧
      lit "--append-system-prompt" ∈ ws ∧ lit "--system-prompt" ∉ ws) := by
  have hsys1 : lit "--system-prompt" ∈ sysWords (lit "--system-prompt") o := by
    unfold sysWords
    rw [hspv]
    simp [hspne]
  have hsys2 : lit "--append-system-prompt" ∈ sysWords (lit "--append-system-prompt") o := by
    unfold sysWords
    rw [hspv]
    simp [hspne]
  refine ⟨⟨_, start_tokens p o hp hm hs, ?_, ?_⟩,
    ⟨_, reply_tokens p sid o hp hm hs (fun s hx hne => (hsid s hx hne).1), ?_, ?_⟩⟩
  · simp only [List.mem_cons, List.mem_append]
    exact Or.inr (Or.inr (Or.inr (Or.inr (Or.inr (Or.inr hsys1)))))
  · intro hmem
    simp only [List.mem_cons, List.mem_append, List.not_mem_nil, or_false, false_or] at hmem
    rcases hmem with h1 | h1 | h1 | h1 | h1 | h1 | h1 <;>
      first
        | exact absurd h1 (by decide)
        | exact hpf.2 (shellSeenStr_inv p (lit "--append-system-prompt") (by decide) h1.symm)
        | exact not_mem_modelWords o _ (fun m a b => (hmf m a b).2) (by decide) h1
        | exact not_mem_sysWords _ o _ (fun sp2 a b =>
            (show sp2 = sp by rw [hspv] at a; exact Option.some.inj a.symm ) ▸ hspf.2)
            (by decide) (by decide) h1
  · simp only [List.mem_cons, List.mem_append]
    exact Or.inr (Or.inr (Or.inr (Or.inr (Or.inr (Or.inr hsys2)))))
  · intro hmem
    rcases hsid2 : sid with _ | sv
    · rw [hsid2] at hmem
      rw [show replyHeadWords none = [lit "claude", lit "-c"] from rfl] at hmem
      simp only [List.cons_append, List.nil_append, List.mem_cons, List.mem_append,
        List.not_mem_nil, or_false, false_or] at hmem
      rcases hmem with h1 | h1 | h1 | h1 | h1 | h1 | h1 | h1 <;>
        first
          | exact absurd h1 (by decide)
          | exact hpf.1 (shellSeenStr_inv p (lit "--system-prompt") (by decide) h1.symm)
          | exact not_mem_modelWords o _ (fun m a b => (hmf m a b).1) (by decide) h1
          | exact not_mem_sysWords _ o _ (fun sp2 a b =>
              (show sp2 = sp by rw [hspv] at a; exact Option.some.inj a.symm ) ▸ hspf.1)
              (by decide) (by decide) h1
    · by_cases hsve : sv = []
      · rw [hsid2, hsve] at hmem
        rw [show replyHeadWords (some []) = [lit "claude", lit "-c"] from rfl] at hmem
        simp only [List.cons_append, List.nil_append, List.mem_cons, List.mem_append,
          List.not_mem_nil, or_false, false_or] at hmem
        rcases hmem with h1 | h1 | h1 | h1 | h1 | h1 | h1 | h1 <;>
          first
            | exact absurd h1 (by decide)
            | exact hpf.1 (shellSeenStr_inv p (lit "--system-prompt") (by decide) h1.symm)
            | exact not_mem_modelWords o _ (fun m a b => (hmf m a b).1) (by decide) h1
            | exact not_mem_sysWords _ o _ (fun sp2 a b =>
                (show sp2 = sp by rw [hspv] at a; exact Option.some.inj a.symm ) ▸ hspf.1)
                (by decide) (by decide) h1
      · rw [hsid2] at hmem
        rw [show replyHeadWords (some sv) = [lit "claude", lit "-r", sv] by
          simp [replyHeadWords, hsve]] at hmem
        simp only [List.cons_append, List.nil_append, List.mem_cons, List.mem_append,
          List.not_mem_nil, or_false, false_or] at hmem
        rcases hmem with h1 | h1 | h1 | h1 | h1 | h1 | h1 | h1 | h1 <;>
          first
            | exact absurd h1 (by decide)
            | exact (hsid sv hsid2 hsve).2.1 h1.symm
            | exact hpf.1 (shellSeenStr_inv p (lit "--system-prompt") (by decide) h1.symm)
            | exact not_mem_modelWords o _ (fun m a b => (hmf m a b).1) (by decide) h1
            | exact not_mem_sysWords _ o _ (fun sp2 a b =>
                (show sp2 = sp by rw [hspv] at a; exact Option.some.inj a.symm ) ▸ hspf.1)
                (by decide) (by decide) h1

/-- C6 witness at a concrete request. -/
theorem c6_sysprompt_asymmetry_witness :
    (∃ ws, bashTokens (buildClaudeCommand (lit "hello") ⟨none, some (lit "be nice"), none⟩) =
      some ws ∧ lit "--system-prompt" ∈ ws ∧ lit "--append-system-prompt" ∉ ws) ∧
    (∃ ws, bashTokens (buildClaudeReplyCommand (lit "hello") (some (lit "abc123"))
        ⟨none, some (lit "be nice"), none⟩) = some ws ∧
      lit "--append-system-prompt" ∈ ws ∧ lit "--system-prompt" ∉ ws) :=
  c6_sysprompt_asymmetry (lit "hello") ⟨none, some (lit "be nice"), none⟩
    (some (lit "abc123")) (lit "be nice") (by decide)
    (fun m hm hne => by cases hm)
    (fun sp hsp hne => by cases Option.some.inj hsp; decide)
    rfl (by decide) (by decide)
    (fun m hm hne => by cases hm)
    (by decide)
    (fun s hx hne => by cases Option.some.inj hx; exact ⟨by decide, by decide, by decide⟩)

/-- Structured decoding fails when the JSON text does not parse, or parses
to null, whose property accesses throw inside the same try block. -/
def structuredDecodeFails (s : Str) : Prop :=
  jsonParse s = none ∨ jsonParse s = some .jnull

/-- C7 counterexample: for the vertical-tab-prefixed JSON object, structured
decoding fails and interpretation yields the trimmed fallback, but the trim
step exposes a parsable object, so re-interpreting the response is not a
no-op: its response differs from the first response. -/
theorem c7_counterexample :
    structuredDecodeFails (Char.ofNat 11 :: lit "\x7b\"result\":\"hi\"\x7d") ∧
    parseClaudeJsonResponse (Char.ofNat 11 :: lit "\x7b\"result\":\"hi\"\x7d") =
      { response := .jstr (lit "\x7b\"result\":\"hi\"\x7d"), sessionId := none,
        isError := .jbool false } ∧
    (parseClaudeJsonResponse (lit "\x7b\"result\":\"hi\"\x7d")).response = .jstr (lit "hi") ∧
    JVal.jstr (lit "hi") ≠ JVal.jstr (lit "\x7b\"result\":\"hi\"\x7d") := by
  refine ⟨Or.inl rfl, rfl, rfl, ?_⟩
  intro h
  exact absurd (JVal.jstr.inj h) (by decide)

/-- C7 (amended): interpreting any text on which structured decoding fails
yields the trimmed text with no session id and no error; re-interpreting
that response is the identity whenever the trimmed text also fails
structured decoding (the exception being nonstandard leading or trailing
whitespace that hides a structured payload from the decoder but is removed
by the trim step). -/
theorem c7_fallback_idempotent (T : Str) (h : structuredDecodeFails T) :
    parseClaudeJsonResponse T =
      { response := .jstr (jsTrim T), sessionId := none, isError := .jbool false } ∧
    (structuredDecodeFails (jsTrim T) →
      parseClaudeJsonResponse (jsTrim T) = parseClaudeJsonResponse T) := by
  have step : ∀ U : Str, structuredDecodeFails U → parseClaudeJsonResponse U =
      { response := .jstr (jsTrim U), sessionId := none, isError := .jbool false } := by
    intro U hU
    unfold parseClaudeJsonResponse
    rcases hU with hU | hU <;> rw [hU]
  refine ⟨step T h, fun h2 => ?_⟩
  rw [step T h, step (jsTrim T) h2, jsTrim_idem]

/-- C7 witness at a concrete non-structured text. -/
theorem c7_fallback_idempotent_witness :
    parseClaudeJsonResponse (lit " not json ") =
      { response := .jstr (jsTrim (lit " not json ")), sessionId := none,
        isError := .jbool false } ∧
    (structuredDecodeFails (jsTrim (lit " not json ")) →
      parseClaudeJsonResponse (jsTrim (lit " not json ")) =
        parseClaudeJsonResponse (lit " not json ")) :=
  c7_fallback_idempotent (lit " not json ") (Or.inl rfl)

/-- C8: a tool call to a known operation whose execution function throws is
answered with an error-flagged result whose text names the failure, and the
dispatch layer returns normally instead of propagating the exception. -/
theorem c8_dispatch_catches (execF : ExecFn) (args : ClaudeReplyArgs) (name : Str) (msg : Str)
    (hname : name = lit "chat" ∨ name = lit "chat-reply")
    (hexec : ∀ c oc, execF c oc = .error ⟨msg⟩) :
    handleToolCall execF name args =
      .ok { contentTexts := [.jstr (lit "Error executing claude: " ++ msg)],
            isError := true, meta := none } := by
  rcases hname with rfl | rfl
  · unfold handleToolCall
    rw [if_pos rfl]
    unfold handleClaude executeClaude
    rw [hexec]
  · unfold handleToolCall
    rw [if_neg (by decide), if_pos rfl]
    unfold handleClaudeReply executeClaudeReply
    rw [hexec]

/-- C8 witness at a concrete failing execution. -/
theorem c8_dispatch_catches_witness :
    handleToolCall (fun _ _ => .error ⟨lit "Claude CLI not found"⟩) (lit "chat")
        ⟨lit "Hello", none, none, none, none⟩ =
      .ok { contentTexts := [.jstr (lit "Error executing claude: Claude CLI not found")],
            isError := true, meta := none } :=
  c8_dispatch_catches (fun _ _ => .error ⟨lit "Claude CLI not found"⟩)
    ⟨lit "Hello", none, none, none, none⟩ (lit "chat") (lit "Claude CLI not found")
    (Or.inl rfl) (fun c oc => rfl)

/-- C9: when the subprocess run succeeds and its structured output carries
is_error true, both operations return normally with the interpreted result
text as the response, and the protocol-level result does not carry the
error flag. -/
theorem c9_is_error_passthrough (execF : ExecFn) (args : ClaudeReplyArgs) (stdout stderr : Str)
    (hexec : ∀ c oc, execF c oc = .ok (stdout, stderr))
    (herr : (parseClaudeJsonResponse stdout).isError = .jbool true) :
    handleToolCall execF (lit "chat") args =
      .ok { contentTexts := [(parseClaudeJsonResponse stdout).response], isError := false,
            meta := (parseClaudeJsonResponse stdout).sessionId } ∧
    (∃ m, handleToolCall execF (lit "chat-reply") args =
      .ok { contentTexts := [(parseClaudeJsonResponse stdout).response], isError := false,
            meta := m }) := by
  constructor
  · unfold handleToolCall
    rw [if_pos rfl]
    unfold handleClaude executeClaude
    rw [hexec]
    dsimp only
    rw [sid_if_reduce]
  · unfold handleToolCall
    rw [if_neg (by decide), if_pos rfl]
    unfold handleClaudeReply executeClaudeReply
    rw [hexec]
    exact ⟨_, rfl⟩

/-- C9 witness at a concrete error-flagged structured output. -/
theorem c9_is_error_passthrough_witness :
    handleToolCall (fun _ _ => .ok (lit "\x7b\"result\":\"bad\",\"is_error\":true\x7d", []))
        (lit "chat") ⟨lit "Hello", none, none, none, none⟩ =
      .ok { contentTexts := [(parseClaudeJsonResponse
              (lit "\x7b\"result\":\"bad\",\"is_error\":true\x7d")).response],
            isError := false,
            meta := (parseClaudeJsonResponse
              (lit "\x7b\"result\":\"bad\",\"is_error\":true\x7d")).sessionId } ∧
    (∃ m, handleToolCall (fun _ _ => .ok (lit "\x7b\"result\":\"bad\",\"is_error\":true\x7d", []))
        (lit "chat-reply") ⟨lit "Hello", none, none, none, none⟩ =
      .ok { contentTexts := [(parseClaudeJsonResponse
              (lit "\x7b\"result\":\"bad\",\"is_error\":true\x7d")).response],
            isError := false, meta := m }) :=
  c9_is_error_passthrough (fun _ _ => .ok (lit "\x7b\"result\":\"bad\",\"is_error\":true\x7d", []))
    ⟨lit "Hello", none, none, none, none⟩ (lit "\x7b\"result\":\"bad\",\"is_error\":true\x7d") []
    (fun c oc => rfl) rfl

/-- C10: for a successfully decoded record, a present-but-falsy result field
makes the response the entire re-serialized record; a present-but-empty
session_id yields no session id; a present-but-false is_error yields a
false error indicator. -/
theorem c10_falsy_fields (stdout : Str) (j : JVal) (hj : jsonParse stdout = some j) :
    (∀ r, jsGetField j (lit "result") = some r → jsTruthy r = false →
      (parseClaudeJsonResponse stdout).response = .jstr (stringify j)) ∧
    (jsGetField j (lit "session_id") = some (.jstr []) →
      (parseClaudeJsonResponse stdout).sessionId = none) ∧
    (jsGetField j (lit "is_error") = some (.jbool false) →
      (parseClaudeJsonResponse stdout).isError = .jbool false) := by
  have hobj : ∀ (k : Str) (w : JVal), jsGetField j k = some w → ∃ fs, j = .jobj fs := by
    intro k w hg
    cases j with
    | jobj fs => exact ⟨fs, rfl⟩
    | jnull => simp [jsGetField] at hg
    | jbool b => simp [jsGetField] at hg
    | jnum i => simp [jsGetField] at hg
    | jstr s => simp [jsGetField] at hg
    | jarr l => simp [jsGetField] at hg
  refine ⟨?_, ?_, ?_⟩
  · intro r hg hf
    obtain ⟨fs, rfl⟩ := hobj _ _ hg
    unfold parseClaudeJsonResponse
    rw [hj]
    dsimp only
    unfold respOf
    rw [hg]
    simp [hf]
  · intro hg
    obtain ⟨fs, rfl⟩ := hobj _ _ hg
    unfold parseClaudeJsonResponse
    rw [hj]
    dsimp only
    unfold sidOf
    rw [hg]
    simp [jsTruthy]
  · intro hg
    obtain ⟨fs, rfl⟩ := hobj _ _ hg
    unfold parseClaudeJsonResponse
    rw [hj]
    dsimp only
    unfold errOf
    rw [hg]
    simp [jsTruthy]

/-- C10 witness at a concrete record with falsy fields. -/
theorem c10_falsy_fields_witness :
    (parseClaudeJsonResponse (lit "\x7b\"result\":\"\",\"session_id\":\"\",\"is_error\":false\x7d")).response =
      .jstr (stringify (.jobj [(lit "result", .jstr []), (lit "session_id", .jstr []),
        (lit "is_error", .jbool false)])) ∧
    (parseClaudeJsonResponse (lit "\x7b\"result\":\"\",\"session_id\":\"\",\"is_error\":false\x7d")).sessionId =
      none ∧
    (parseClaudeJsonResponse (lit "\x7b\"result\":\"\",\"session_id\":\"\",\"is_error\":false\x7d")).isError =
      .jbool false :=
  ⟨(c10_falsy_fields (lit "\x7b\"result\":\"\",\"session_id\":\"\",\"is_error\":false\x7d")
      (.jobj [(lit "result", .jstr []), (lit "session_id", .jstr []),
        (lit "is_error", .jbool false)]) rfl).1 (.jstr []) rfl rfl,
   (c10_falsy_fields (lit "\x7b\"result\":\"\",\"session_id\":\"\",\"is_error\":false\x7d")
      (.jobj [(lit "result", .jstr []), (lit "session_id", .jstr []),
        (lit "is_error", .jbool false)]) rfl).2.1 rfl,
   (c10_falsy_fields (lit "\x7b\"result\":\"\",\"session_id\":\"\",\"is_error\":false\x7d")
      (.jobj [(lit "result", .jstr []), (lit "session_id", .jstr []),
        (lit "is_error", .jbool false)]) rfl).2.2 rfl⟩
